import Mathlib

/-!
Verification of the whiteboard canvas engine.

Shallow embedding of the shape model, renderer command stream, hit tester,
selection/manipulation controller, layer reconciliation and the performance
monitor, translated from the TypeScript sources
(`drawHandler.ts`, the layered `Canvas` component, `PerformanceMonitor.ts`).
JS numbers are modelled as rationals, colours/ids/urls as strings.
-/

namespace Whiteboard

/-- The `Rectangle` interface from `drawHandler.ts`. -/
structure Rectangle where
  id : String
  width : ℚ
  height : ℚ
  x : ℚ
  y : ℚ
  rotation : ℚ
  borderRadius : ℚ
  filled : Bool
  borderWidth : ℚ
  borderColor : String
  color : String
  layer : ℚ
deriving DecidableEq, Repr

/-- The `Circle` interface from `drawHandler.ts`. -/
structure Circle where
  id : String
  height : ℚ
  width : ℚ
  x : ℚ
  y : ℚ
  rotation : ℚ
  filled : Bool
  borderWidth : ℚ
  borderColor : String
  color : String
  layer : ℚ
deriving DecidableEq, Repr

/-- The `Image` interface from `drawHandler.ts`. -/
structure Image where
  id : String
  height : ℚ
  width : ℚ
  x : ℚ
  y : ℚ
  rotation : ℚ
  url : String
  layer : ℚ
deriving DecidableEq, Repr

/-- The tagged union `type Shape = Rectangle | Circle | Image`. -/
inductive Shape where
  | rect (r : Rectangle)
  | circ (c : Circle)
  | img (i : Image)
deriving DecidableEq, Repr

namespace Shape

/-- Common field `x`. -/
def x : Shape → ℚ
  | .rect r => r.x
  | .circ c => c.x
  | .img i => i.x

/-- Common field `y`. -/
def y : Shape → ℚ
  | .rect r => r.y
  | .circ c => c.y
  | .img i => i.y

/-- Common field `width`. -/
def width : Shape → ℚ
  | .rect r => r.width
  | .circ c => c.width
  | .img i => i.width

/-- Common field `height`. -/
def height : Shape → ℚ
  | .rect r => r.height
  | .circ c => c.height
  | .img i => i.height

/-- Common field `id`. -/
def id : Shape → String
  | .rect r => r.id
  | .circ c => c.id
  | .img i => i.id

/-- Common field `layer`. -/
def layer : Shape → ℚ
  | .rect r => r.layer
  | .circ c => c.layer
  | .img i => i.layer

/-- Common field `rotation`. -/
def rotation : Shape → ℚ
  | .rect r => r.rotation
  | .circ c => c.rotation
  | .img i => i.rotation

/-- Replace the geometry fields (`x`, `y`, `width`, `height`), keeping all
other fields; models the in-place assignments
`obj.width = …; obj.height = …; obj.x = …; obj.y = …`. -/
def withGeom (s : Shape) (nx ny nw nh : ℚ) : Shape :=
  match s with
  | .rect r => .rect { r with x := nx, y := ny, width := nw, height := nh }
  | .circ c => .circ { c with x := nx, y := ny, width := nw, height := nh }
  | .img i => .img { i with x := nx, y := ny, width := nw, height := nh }

end Shape

/-- The kind-specific (non-geometric) fields of a shape, used to state that a
mutation leaves everything but the geometry untouched. -/
inductive ShapeStyle where
  | rectS (borderRadius : ℚ) (filled : Bool) (borderWidth : ℚ)
      (borderColor color : String)
  | circS (filled : Bool) (borderWidth : ℚ) (borderColor color : String)
  | imgS (url : String)
deriving DecidableEq, Repr

/-- Project a shape onto its style fields. -/
def Shape.style : Shape → ShapeStyle
  | .rect r => .rectS r.borderRadius r.filled r.borderWidth r.borderColor r.color
  | .circ c => .circS c.filled c.borderWidth c.borderColor c.color
  | .img i => .imgS i.url

@[simp] theorem Shape.x_withGeom (s : Shape) (nx ny nw nh : ℚ) :
    (s.withGeom nx ny nw nh).x = nx := by cases s <;> rfl

@[simp] theorem Shape.y_withGeom (s : Shape) (nx ny nw nh : ℚ) :
    (s.withGeom nx ny nw nh).y = ny := by cases s <;> rfl

@[simp] theorem Shape.width_withGeom (s : Shape) (nx ny nw nh : ℚ) :
    (s.withGeom nx ny nw nh).width = nw := by cases s <;> rfl

@[simp] theorem Shape.height_withGeom (s : Shape) (nx ny nw nh : ℚ) :
    (s.withGeom nx ny nw nh).height = nh := by cases s <;> rfl

/-- The `CanvasData` record — `{ objects: Array<Shape> }`. -/
structure CanvasData where
  objects : List Shape
deriving DecidableEq, Repr

/-! ## Hit tester (`detectObjectHit`, layered `Canvas` component) -/

/-- Containment test of one shape against pointer `(px, py)`, exactly the
per-kind tests in `detectObjectHit`.  For `Circle` the source compares
`sqrt((px-cx)^2 + (py-cy)^2) <= radius`; over the reals this is equivalent to
`0 ≤ radius ∧ (px-cx)^2 + (py-cy)^2 ≤ radius^2`, which is the square-root-free
form used here. -/
def shapeContains (px py : ℚ) (s : Shape) : Bool :=
  match s with
  | .rect r =>
    px ≥ r.x && px ≤ r.x + r.width && py ≥ r.y && py ≤ r.y + r.height
  | .circ c =>
    let centerX := c.x + c.width / 2
    let centerY := c.y + c.height / 2
    let radius := min c.width c.height / 2
    0 ≤ radius &&
      (px - centerX) ^ 2 + (py - centerY) ^ 2 ≤ radius ^ 2
  | .img i =>
    px ≥ i.x && px ≤ i.x + i.width && py ≥ i.y && py ≤ i.y + i.height

/-- Function `detectObjectHit(x, y)`: iterates `canvasData.objects` in stored order and
pushes every shape containing the point (`forEach` + `push`, modelled as a
left fold onto an accumulator). -/
def detectObjectHit (canvasData : CanvasData) (px py : ℚ) : List Shape :=
  canvasData.objects.foldl
    (fun hit s => if shapeContains px py s then hit ++ [s] else hit) []

theorem foldl_push_filter (l acc : List Shape) (px py : ℚ) :
    l.foldl (fun hit s => if shapeContains px py s then hit ++ [s] else hit) acc
      = acc ++ l.filter (shapeContains px py) := by
  induction l generalizing acc with
  | nil => simp
  | cons a t ih =>
    by_cases h : shapeContains px py a = true
    · simp [List.foldl_cons, h, ih]
    · simp [List.foldl_cons, if_neg h, ih, List.filter_cons]

/-- The hit list is the stored object list filtered by containment,
in stored order. -/
theorem detectObjectHit_eq_filter (canvasData : CanvasData) (px py : ℚ) :
    detectObjectHit canvasData px py
      = canvasData.objects.filter (shapeContains px py) := by
  unfold detectObjectHit
  simpa using foldl_push_filter canvasData.objects [] px py

/-! ## Renderer (`drawRectangle` / `drawCircle`, `drawHandler.ts`) -/

/-- Abstract drawing-surface commands issued by the renderer. -/
inductive DrawCmd where
  | beginPath
  | roundRect (x y w h r : ℚ)
  | ellipse (cx cy rx ry rot : ℚ)
  | setFillStyle (c : String)
  | fill
  | setLineWidth (w : ℚ)
  | setStrokeStyle (c : String)
  | stroke
deriving DecidableEq, Repr

/-- Function `drawRectangle`: rounded-rect path, fill only when `filled`, stroke only
when `borderWidth > 0`. -/
def drawRectangle (r : Rectangle) : List DrawCmd :=
  let radius := min r.borderRadius (min (r.width / 2) (r.height / 2))
  [DrawCmd.beginPath, DrawCmd.roundRect r.x r.y r.width r.height radius]
    ++ (if r.filled then [DrawCmd.setFillStyle r.color, DrawCmd.fill] else [])
    ++ (if r.borderWidth > 0 then
          [DrawCmd.setLineWidth r.borderWidth,
           DrawCmd.setStrokeStyle r.borderColor, DrawCmd.stroke]
        else [])

/-- Function `drawCircle`: sets the fill style, builds the ellipse path, fills only when
`filled`, then sets the line width and strokes unconditionally. -/
def drawCircle (c : Circle) : List DrawCmd :=
  [DrawCmd.beginPath, DrawCmd.setFillStyle c.color,
   DrawCmd.ellipse (c.x + c.width / 2) (c.y + c.height / 2)
     (c.width / 2) (c.height / 2) c.rotation]
    ++ (if c.filled then [DrawCmd.setFillStyle c.color, DrawCmd.fill] else [])
    ++ [DrawCmd.setLineWidth c.borderWidth, DrawCmd.stroke]

/-! ## Resize (`scaleObjects`) and move (`moveObjects`) -/

/-- The four selection handles `"TL" | "TR" | "BL" | "BR"`. -/
inductive Handle where
  | TL
  | TR
  | BL
  | BR
deriving DecidableEq, Repr

/-- The `switch (currentHoveringSelectHandle)` body of `scaleObjects` for one
shape: applies the drag delta for the active handle, then normalizes a
non-positive width/height by taking its absolute value, shifting the
coordinate, and recording the mirrored handle via
`setCurrentHoveringSelectHandle` (the last call wins, modelled by the
`Option Handle` component; `none` means no reassignment happened).
Returns `(newWidth, newHeight, newX, newY, handleSet)` before the
minimum-size clamp. -/
def scaleCore (handle : Handle) (dx dy : ℚ) (obj : Shape) :
    ℚ × ℚ × ℚ × ℚ × Option Handle :=
  match handle with
  | .TL =>
    let w1 := obj.width - dx
    let h1 := obj.height - dy
    let x1 := obj.x + dx
    let y1 := obj.y + dy
    let w2 := if w1 ≤ 0 then |w1| else w1
    let x2 := if w1 ≤ 0 then x1 - |w1| else x1
    let hd1 : Option Handle := if w1 ≤ 0 then some .TR else none
    let h2 := if h1 ≤ 0 then |h1| else h1
    let y2 := if h1 ≤ 0 then y1 - |h1| else y1
    let hd2 : Option Handle := if h1 ≤ 0 then some .BL else hd1
    let hd3 : Option Handle := if w2 ≤ 0 ∧ h2 ≤ 0 then some .BR else hd2
    (w2, h2, x2, y2, hd3)
  | .TR =>
    let w1 := obj.width + dx
    let h1 := obj.height - dy
    let y1 := obj.y + dy
    let w2 := if w1 ≤ 0 then |w1| else w1
    let x2 := if w1 ≤ 0 then obj.x - |w1| else obj.x
    let hd1 : Option Handle := if w1 ≤ 0 then some .TL else none
    let h2 := if h1 ≤ 0 then |h1| else h1
    let y2 := if h1 ≤ 0 then y1 - |h1| else y1
    let hd2 : Option Handle := if h1 ≤ 0 then some .BR else hd1
    let hd3 : Option Handle := if w2 ≤ 0 ∧ h2 ≤ 0 then some .BL else hd2
    (w2, h2, x2, y2, hd3)
  | .BL =>
    let w1 := obj.width - dx
    let h1 := obj.height + dy
    let x1 := obj.x + dx
    let w2 := if w1 ≤ 0 then |w1| else w1
    let x2 := if w1 ≤ 0 then x1 - |w1| else x1
    let hd1 : Option Handle := if w1 ≤ 0 then some .BR else none
    let h2 := if h1 ≤ 0 then |h1| else h1
    let y2 := if h1 ≤ 0 then obj.y - |h1| else obj.y
    let hd2 : Option Handle := if h1 ≤ 0 then some .TL else hd1
    let hd3 : Option Handle := if w2 ≤ 0 ∧ h2 ≤ 0 then some .TR else hd2
    (w2, h2, x2, y2, hd3)
  | .BR =>
    let w1 := obj.width + dx
    let h1 := obj.height + dy
    let w2 := if w1 ≤ 0 then |w1| else w1
    let x2 := if w1 ≤ 0 then obj.x - |w1| else obj.x
    let hd1 : Option Handle := if w1 ≤ 0 then some .BL else none
    let h2 := if h1 ≤ 0 then |h1| else h1
    let y2 := if h1 ≤ 0 then obj.y - |h1| else obj.y
    let hd2 : Option Handle := if h1 ≤ 0 then some .TR else hd1
    let hd3 : Option Handle := if w2 ≤ 0 ∧ h2 ≤ 0 then some .TL else hd2
    (w2, h2, x2, y2, hd3)

/-- The constant `const MIN_SIZE = 5` in `scaleObjects`. -/
def MIN_SIZE : ℚ := 5

/-- One full `scaleObjects` step for one shape: handle-specific delta and
normalization (`scaleCore`), then the minimum-size clamp
`if (newWidth < MIN_SIZE) newWidth = MIN_SIZE` (same for height), then the
assignment back into the shape.  Returns the mutated shape and the handle
reassignment requested during the step. -/
def scaleObjectsStep (handle : Handle) (dx dy : ℚ) (obj : Shape) :
    Shape × Option Handle :=
  let r := scaleCore handle dx dy obj
  let nw := if r.1 < MIN_SIZE then MIN_SIZE else r.1
  let nh := if r.2.1 < MIN_SIZE then MIN_SIZE else r.2.1
  (obj.withGeom r.2.2.1 r.2.2.2.1 nw nh, r.2.2.2.2)

/-- The `moveObjects` body for one shape: `obj.x += dx; obj.y += dy`. -/
def moveShape (dx dy : ℚ) (s : Shape) : Shape :=
  match s with
  | .rect r => .rect { r with x := r.x + dx, y := r.y + dy }
  | .circ c => .circ { c with x := c.x + dx, y := c.y + dy }
  | .img i => .img { i with x := i.x + dx, y := i.y + dy }

/-- Function `moveObjects(dx, dy)`: translates every shape of the moving set and calls
`callbacks.onShapeChange(obj)` once for each.  Returns the mutated set and the
sequence of shapes reported through `onShapeChange`, in order. -/
def moveObjects (moving : List Shape) (dx dy : ℚ) :
    List Shape × List Shape :=
  let mutated := moving.map (moveShape dx dy)
  (mutated, mutated)

/-! ## Shift-click selection toggle (`handleCanvasClick`) -/

/-- The shift-click branch of `handleCanvasClick`: with a previous selection
`prev` (a JS `Set` of shapes, modelled as a duplicate-free list in insertion
order) and the hit shape, membership is tested by id
(`prevSelected.some(obj => obj.id === hit.id)`); on a match the hit object
itself is deleted from the set (`prevSelectedSet.delete(hit)`, a no-op when
the set holds a different object with the same id), otherwise the hit is
added at the end.  `none` models a `null` previous selection
(`if (!prevSelected) return [hit]`). -/
def toggleClick (prev : Option (List Shape)) (hit : Shape) : List Shape :=
  match prev with
  | none => [hit]
  | some prevSelected =>
    if prevSelected.any (fun o => o.id == hit.id) then
      prevSelected.erase hit
    else
      prevSelected ++ [hit]

/-- The set of ids a selection list refers to. -/
def idSet (l : List Shape) : Finset String :=
  (l.map Shape.id).toFinset

/-! ## Shape-layer reconciliation (the `useEffect` on `canvasData.objects`) -/

/-- One per-shape layer record: stored shape snapshot plus dirty flag
(the `canvasRef` is not modelled; it carries no reconciliation logic). -/
structure ShapeLayer where
  shape : Shape
  needsRedraw : Bool
deriving DecidableEq, Repr

/-- The reconciliation pass: sort the objects by `layer` ascending
(`[...canvasData.objects].sort((a, b) => a.layer - b.layer)`), then for each
shape reuse the existing layer with the same id — marking it dirty iff the
stored snapshot differs field-by-field (`JSON.stringify` comparison, i.e.
structural equality) — or create a fresh layer marked dirty.  Layers whose id
is absent from the new objects are dropped (they are simply not produced). -/
def reconcileLayers (old : List ShapeLayer) (objects : List Shape) :
    List ShapeLayer :=
  let sorted := objects.mergeSort (fun a b => a.layer ≤ b.layer)
  sorted.map fun s =>
    match old.find? (fun l => l.shape.id == s.id) with
    | some l => ⟨s, l.shape != s⟩
    | none => ⟨s, true⟩

/-- The redraw effect over the layers: every dirty layer is drawn and
`drawShape` ends with `layer.needsRedraw = false`; clean layers already carry
`false`.  After the pass every flag is `false`. -/
def drawPass (layers : List ShapeLayer) : List ShapeLayer :=
  layers.map fun l => ⟨l.shape, false⟩

/-- The selection/hover pruning inside the same `useEffect`: when at least one
previous layer's id is gone from the new objects, the selection is filtered
to ids still present (`null` when nothing remains, unchanged when the filter
removed nothing) and a hovering shape with a vanished id is cleared; when no
layer was removed, both are left untouched. -/
def reconcileSelection (old : List ShapeLayer) (selection : Option (List Shape))
    (hovering : Option Shape) (objects : List Shape) :
    Option (List Shape) × Option Shape :=
  let currentIds := objects.map Shape.id
  let removed := old.filter fun l => !(currentIds.contains l.shape.id)
  if 0 < removed.length then
    let sel' :=
      match selection with
      | some sel =>
        let ns := sel.filter fun o => currentIds.contains o.id
        if ns.length ≠ sel.length then
          (if 0 < ns.length then some ns else none)
        else some sel
      | none => none
    let hov' :=
      match hovering with
      | some h => if !(currentIds.contains h.id) then none else some h
      | none => none
    (sel', hov')
  else
    (selection, hovering)

/-! ## GIF animation timers (`drawImage` / `animateGif`, `drawHandler.ts`)

Per shape id, `drawImage` keeps at most one pending `setTimeout` handle in
`timeoutCache`.  The events that touch the timers of one shape id are:

* the GIF branch of `drawImage` (lines: clear the cached timer if any, then
  schedule `animateGif` and store the new handle);
* a pending timer firing: the callback `animateGif` runs, advances the frame
  and schedules its successor, storing it in the cache (overwriting);
* a timer firing after its closure was cancelled (`isAnimating === false`):
  the callback returns without rescheduling;
* the cleanup function returned by `drawImage`: clears the cached timer.

The state tracks the multiset of pending timer handles for one shape id
(as a list of distinct handle numbers), the `timeoutCache` entry, and a
fresh-handle counter. -/

structure GifTimerState where
  pending : List Nat
  cache : Option Nat
  nextId : Nat
deriving DecidableEq, Repr

/-- Step `clearTimeout(timeoutCache.get(id)); timeoutCache.delete(id)` guarded by
`timeoutCache.has(id)`. -/
def clearCached (s : GifTimerState) : GifTimerState :=
  match s.cache with
  | some t => ⟨s.pending.erase t, none, s.nextId⟩
  | none => s

/-- Step `const timeoutId = setTimeout(animateGif, delay); timeoutCache.set(id, timeoutId)`. -/
def scheduleTimer (s : GifTimerState) : GifTimerState :=
  ⟨s.pending ++ [s.nextId], some s.nextId, s.nextId + 1⟩

/-- The timer-relevant transitions for one shape id. -/
inductive GifStep : GifTimerState → GifTimerState → Prop
  | draw (s : GifTimerState) :
      GifStep s (scheduleTimer (clearCached s))
  | fire (s : GifTimerState) (t : Nat) (h : t ∈ s.pending) :
      GifStep s (scheduleTimer ⟨s.pending.erase t, s.cache, s.nextId⟩)
  | fireStopped (s : GifTimerState) (t : Nat) (h : t ∈ s.pending) :
      GifStep s ⟨s.pending.erase t, s.cache, s.nextId⟩
  | cleanup (s : GifTimerState) :
      GifStep s (clearCached s)

/-- States reachable from the initial state (no pending timer, empty cache). -/
inductive GifReachable : GifTimerState → Prop
  | init : GifReachable ⟨[], none, 0⟩
  | step {s s' : GifTimerState} :
      GifReachable s → GifStep s s' → GifReachable s'

/-- The inductive invariant: every pending timer is the cached one (so there
is at most one). -/
def GifInv (s : GifTimerState) : Prop :=
  s.pending.length ≤ 1 ∧ ∀ t ∈ s.pending, s.cache = some t

/-! ## Performance monitor (`PerformanceMonitor.ts`) -/

/-- The optional `memoryUsage` record of a performance entry. -/
structure MemUsage where
  totalJSHeapSize : Option ℚ
  usedJSHeapSize : Option ℚ
  jsHeapSizeLimit : Option ℚ
deriving DecidableEq, Repr

/-- The `PerformanceEntry` record. -/
structure PerfEntry where
  timestamp : ℚ
  renderTime : ℚ
  objectCount : Nat
  fps : Option ℚ
  memoryUsage : Option MemUsage
deriving DecidableEq, Repr

/-- JS `Array.prototype.join(sep)` on a list of strings. -/
def jsJoin (sep : String) : List String → String
  | [] => ""
  | [a] => a
  | a :: b :: rest => a ++ sep ++ jsJoin sep (b :: rest)

/-- Numeric rendering (`toFixed(2)`, `toISOString`, plain interpolation) is
abstracted to `toString` of the rational; the CSV claims concern document
structure, not digit formatting. -/
def numStr (q : ℚ) : String := toString q

/-- One CSV row for one entry.  `entry.fps || 'N/A'` and the
`memoryUsage?.… ? … : 'N/A'` conditionals test JS truthiness, so a missing
or zero value renders as `N/A`. -/
def csvRow (e : PerfEntry) : String :=
  jsJoin ","
    [numStr e.timestamp,
     numStr e.renderTime,
     toString e.objectCount,
     (match e.fps with
      | some f => if f ≠ 0 then numStr f else "N/A"
      | none => "N/A"),
     (match e.memoryUsage with
      | some m =>
        match m.totalJSHeapSize with
        | some v => if v ≠ 0 then numStr (v / (1024 * 1024)) else "N/A"
        | none => "N/A"
      | none => "N/A"),
     (match e.memoryUsage with
      | some m =>
        match m.usedJSHeapSize with
        | some v => if v ≠ 0 then numStr (v / (1024 * 1024)) else "N/A"
        | none => "N/A"
      | none => "N/A")]

/-- The CSV header line `headers.join(',')`. -/
def csvHeaderLine : String :=
  jsJoin ","
    ["Timestamp", "Render Time (ms)", "Object Count", "FPS",
     "Total Heap Size (MB)", "Used Heap Size (MB)"]

/-- Function `exportAsCSV()`: the empty-entries guard returns a plain message;
otherwise the header line and one row per entry are joined with newlines. -/
def exportAsCSV (entries : List PerfEntry) : String :=
  if entries.length = 0 then
    "No performance data available"
  else
    jsJoin "\n" (csvHeaderLine :: entries.map csvRow)

/-! ## Concrete shapes used in counterexamples and witnesses -/

/-- A 50×50 rectangle at (10, 10) on layer 1. -/
def exRect : Rectangle :=
  { id := "r1", width := 50, height := 50, x := 10, y := 10, rotation := 0,
    borderRadius := 0, filled := true, borderWidth := 1,
    borderColor := "black", color := "red", layer := 1 }

/-- A 100×100 rectangle at (0, 0) on layer 2 (visually above `exRect`). -/
def exRectB : Rectangle :=
  { id := "r2", width := 100, height := 100, x := 0, y := 0, rotation := 0,
    borderRadius := 0, filled := true, borderWidth := 1,
    borderColor := "black", color := "blue", layer := 2 }

/-- An unfilled circle with `borderWidth = 0`. -/
def exCircle : Circle :=
  { id := "c1", height := 40, width := 40, x := 0, y := 0, rotation := 0,
    filled := false, borderWidth := 0, borderColor := "black",
    color := "green", layer := 3 }

/-! ## C1 — BR resize drag with `dx = -(width+1)` -/

/-- C1 counterexample: for the 50-wide rectangle `exRect`, a BR drag with
`dx = -51, dy = 0` does NOT produce `width = 1` together with
`x = x_old - 1` and the BL handle: the minimum-size clamp raises the
normalized width of 1 up to 5, so the claimed conjunction is false. -/
theorem c1_brHandleFlip_counterexample :
    ¬ ((scaleObjectsStep .BR (-51) 0 (.rect exRect)).1.width = 1
        ∧ (scaleObjectsStep .BR (-51) 0 (.rect exRect)).1.x = exRect.x - 1
        ∧ (scaleObjectsStep .BR (-51) 0 (.rect exRect)).2 = some .BL) := by
  intro h
  have hw := h.1
  norm_num [scaleObjectsStep, scaleCore, MIN_SIZE, exRect, Shape.width,
    Shape.height, Shape.x, Shape.y, Shape.withGeom] at hw

/-- C1 (amended): dragging the BR handle by `dx = -(width+1), dy = 0` on a
shape of positive height flips the active handle to BL and leaves the shape
with `x = x_old - 1`, `y` unchanged — but with `width = 5`: the width is
normalized to `|-1| = 1` and then raised to the minimum-size floor
`MIN_SIZE = 5`, not left at 1. -/
theorem c1_brHandleFlip_amended (obj : Shape) (hh : 0 < obj.height) :
    (scaleObjectsStep .BR (-(obj.width + 1)) 0 obj).1.width = 5
    ∧ (scaleObjectsStep .BR (-(obj.width + 1)) 0 obj).1.x = obj.x - 1
    ∧ (scaleObjectsStep .BR (-(obj.width + 1)) 0 obj).1.y = obj.y
    ∧ (scaleObjectsStep .BR (-(obj.width + 1)) 0 obj).2 = some .BL := by
  have hcore : scaleCore .BR (-(obj.width + 1)) 0 obj
      = (1, obj.height, obj.x - 1, obj.y, some .BL) := by
    simp only [scaleCore]
    rw [show obj.width + -(obj.width + 1) = -1 from by ring]
    norm_num [hh.not_le]
  simp only [scaleObjectsStep, hcore, MIN_SIZE]
  norm_num

/-- C1 witness: the amended statement holds at the concrete rectangle
`exRect` (height 50 > 0). -/
theorem c1_brHandleFlip_witness :
    (0 : ℚ) < (Shape.rect exRect).height
    ∧ ((scaleObjectsStep .BR (-((Shape.rect exRect).width + 1)) 0
          (.rect exRect)).1.width = 5
        ∧ (scaleObjectsStep .BR (-((Shape.rect exRect).width + 1)) 0
            (.rect exRect)).1.x = (Shape.rect exRect).x - 1
        ∧ (scaleObjectsStep .BR (-((Shape.rect exRect).width + 1)) 0
            (.rect exRect)).1.y = (Shape.rect exRect).y
        ∧ (scaleObjectsStep .BR (-((Shape.rect exRect).width + 1)) 0
            (.rect exRect)).2 = some .BL) :=
  ⟨by norm_num [Shape.height, exRect],
   c1_brHandleFlip_amended (.rect exRect) (by norm_num [Shape.height, exRect])⟩

/-! ## C2 — hit-test ordering -/

/-- C2 counterexample: with `objects = [exRect (layer 1), exRectB (layer 2)]`
and pointer `(15, 15)` inside both, `detectObjectHit` returns the shapes in
stored order `[exRect, exRectB]`, so index 0 is the layer-1 shape even though
the layer-2 shape is visually topmost — the result is not ordered from
topmost to bottommost. -/
theorem c2_hitTest_counterexample :
    detectObjectHit ⟨[.rect exRect, .rect exRectB]⟩ 15 15
        = [.rect exRect, .rect exRectB]
    ∧ Shape.layer (.rect exRect) < Shape.layer (.rect exRectB) := by
  constructor
  · norm_num [detectObjectHit, shapeContains, exRect, exRectB]
  · norm_num [Shape.layer, exRect, exRectB]

/-- C2 (amended): `detectObjectHit` returns exactly the shapes containing the
point, in the order they appear in `canvasData.objects` (a sublist of the
stored object list), not sorted by layer. -/
theorem c2_hitTest_amended (canvasData : CanvasData) (px py : ℚ) :
    detectObjectHit canvasData px py
        = canvasData.objects.filter (shapeContains px py)
    ∧ (detectObjectHit canvasData px py).Sublist canvasData.objects := by
  refine ⟨detectObjectHit_eq_filter canvasData px py, ?_⟩
  rw [detectObjectHit_eq_filter]
  exact List.filter_sublist canvasData.objects

/-! ## C3 — fill/stroke conditions in the renderer -/

/-- C3 counterexample: `drawCircle` issues a stroke command even for a circle
with `borderWidth = 0` — the stroke is unconditional for circles. -/
theorem c3_fillStroke_counterexample :
    DrawCmd.stroke ∈ drawCircle exCircle ∧ ¬ (exCircle.borderWidth > 0) := by
  constructor
  · simp [drawCircle, exCircle]
  · norm_num [exCircle]

/-- C3 (amended): fill commands are issued iff `filled` for both kinds, and
stroke commands are issued iff `borderWidth > 0` for `drawRectangle`; but
`drawCircle` strokes unconditionally (it sets the line width to
`borderWidth` and calls `stroke()` with no guard). -/
theorem c3_fillStroke_amended :
    (∀ r : Rectangle,
      (DrawCmd.fill ∈ drawRectangle r ↔ r.filled = true)
      ∧ (DrawCmd.stroke ∈ drawRectangle r ↔ 0 < r.borderWidth))
    ∧ (∀ c : Circle,
      (DrawCmd.fill ∈ drawCircle c ↔ c.filled = true)
      ∧ DrawCmd.stroke ∈ drawCircle c) := by
  constructor
  · intro r
    constructor
    · by_cases hf : r.filled = true
      · simp [drawRectangle, hf]
      · by_cases hb : 0 < r.borderWidth <;> simp [drawRectangle, hf, hb]
    · by_cases hb : 0 < r.borderWidth
      · simp [drawRectangle, hb]
      · by_cases hf : r.filled = true <;> simp [drawRectangle, hf, hb]
  · intro c
    constructor
    · by_cases hf : c.filled = true <;> simp [drawCircle, hf]
    · by_cases hf : c.filled = true <;> simp [drawCircle, hf]

/-! ## C4 — minimum-size floor after any resize step -/

/-- C4: after any `scaleObjects` step — every handle, every delta, every
shape — the resulting width and height are at least the minimum-size floor
of 5 units (in particular never negative): the final clamp
`if (newWidth < MIN_SIZE) newWidth = MIN_SIZE` applies unconditionally. -/
theorem c4_minSizeFloor (handle : Handle) (dx dy : ℚ) (obj : Shape) :
    5 ≤ (scaleObjectsStep handle dx dy obj).1.width
    ∧ 5 ≤ (scaleObjectsStep handle dx dy obj).1.height := by
  constructor <;>
  · simp only [scaleObjectsStep, MIN_SIZE, Shape.width_withGeom,
      Shape.height_withGeom]
    split
    · norm_num
    · linarith [not_lt.mp (by assumption : ¬ _ < (5 : ℚ))]

/-! ## C5 — reconcile-and-redraw idempotence -/

theorem find?_layer_self (S : List Shape) (s : Shape) (hs : s ∈ S)
    (hnd : (S.map Shape.id).Nodup) :
    (S.map fun t => ShapeLayer.mk t false).find?
        (fun l => l.shape.id == s.id) = some ⟨s, false⟩ := by
  induction S with
  | nil => exact absurd hs (List.not_mem_nil s)
  | cons a T ih =>
    rcases List.mem_cons.mp hs with rfl | hsT
    · simp [List.find?_cons_of_pos]
    · by_cases h : a.id = s.id
      · exfalso
        have hmem : s.id ∈ T.map Shape.id := List.mem_map_of_mem Shape.id hsT
        have hhead : a.id ∉ T.map Shape.id := (List.nodup_cons.mp hnd).1
        rw [h] at hhead
        exact hhead hmem
      · have hfa : ¬ (((ShapeLayer.mk a false).shape.id == s.id) = true) := by
          simp [h]
        rw [List.map_cons]
        exact (@List.find?_cons_of_neg _ (fun l => l.shape.id == s.id)
            (ShapeLayer.mk a false)
            (T.map fun t => ShapeLayer.mk t false) hfa).trans
          (ih hsT (List.nodup_cons.mp hnd).2)

theorem reconcileLayers_map_shape (old : List ShapeLayer)
    (objects : List Shape) :
    (reconcileLayers old objects).map ShapeLayer.shape
      = objects.mergeSort (fun a b => a.layer ≤ b.layer) := by
  unfold reconcileLayers
  rw [List.map_map]
  have h : ∀ s ∈ objects.mergeSort (fun a b => a.layer ≤ b.layer),
      (ShapeLayer.shape ∘ fun s =>
        match old.find? (fun l => l.shape.id == s.id) with
        | some l => ShapeLayer.mk s (l.shape != s)
        | none => ShapeLayer.mk s true) s = s := by
    intro s _
    cases hf : old.find? (fun l => l.shape.id == s.id) <;> simp [hf]
  rw [List.map_congr_left h]
  simp

/-- C5: reconciling against field-by-field identical shapes marks nothing
dirty — a second reconcile after a full draw pass yields zero dirty layers —
while a shape id with no previous layer gets a fresh layer marked dirty, and
the produced layers carry exactly the new objects (ids absent from the new
`CanvasData` are dropped). -/
theorem c5_reconcileIdempotence (old : List ShapeLayer) (objects : List Shape)
    (hids : (objects.map Shape.id).Nodup) :
    (∀ l ∈ reconcileLayers (drawPass (reconcileLayers old objects)) objects,
      l.needsRedraw = false)
    ∧ (∀ s ∈ objects, (∀ l0 ∈ old, l0.shape.id ≠ s.id) →
        ShapeLayer.mk s true ∈ reconcileLayers old objects)
    ∧ ((reconcileLayers old objects).map ShapeLayer.shape).Perm objects := by
  have hperm := List.mergeSort_perm objects (fun a b => a.layer ≤ b.layer)
  have hndSorted :
      ((objects.mergeSort (fun a b => a.layer ≤ b.layer)).map Shape.id).Nodup :=
    ((hperm.map Shape.id).nodup_iff).mpr hids
  refine ⟨?_, ?_, ?_⟩
  · have hdp : drawPass (reconcileLayers old objects)
        = (objects.mergeSort (fun a b => a.layer ≤ b.layer)).map
            (fun t => ShapeLayer.mk t false) := by
      unfold drawPass reconcileLayers
      rw [List.map_map]
      apply List.map_congr_left
      intro s _
      cases hf : old.find? (fun l => l.shape.id == s.id) <;> simp [hf]
    intro l hl
    rw [hdp] at hl
    unfold reconcileLayers at hl
    obtain ⟨s, hsSorted, rfl⟩ := List.mem_map.mp hl
    rw [find?_layer_self _ s hsSorted hndSorted]
    simp
  · intro s hs hnone
    have hs' : s ∈ objects.mergeSort (fun a b => a.layer ≤ b.layer) :=
      (hperm.mem_iff).mpr hs
    have hfind : old.find? (fun l => l.shape.id == s.id) = none := by
      apply List.find?_eq_none.mpr
      intro l hl
      simpa using hnone l hl
    unfold reconcileLayers
    exact List.mem_map.mpr ⟨s, hs', by simp [hfind]⟩
  · rw [reconcileLayers_map_shape]
    exact hperm

/-- C5 witness: concrete instance with an empty previous layer list and one
rectangle. -/
theorem c5_reconcileIdempotence_witness :
    (([Shape.rect exRect].map Shape.id).Nodup)
    ∧ ((∀ l ∈ reconcileLayers (drawPass (reconcileLayers [] [.rect exRect]))
          [.rect exRect], l.needsRedraw = false)
      ∧ (∀ s ∈ [Shape.rect exRect],
          (∀ l0 ∈ ([] : List ShapeLayer), l0.shape.id ≠ s.id) →
            ShapeLayer.mk s true ∈ reconcileLayers [] [.rect exRect])
      ∧ ((reconcileLayers [] [.rect exRect]).map ShapeLayer.shape).Perm
          [.rect exRect]) :=
  ⟨by simp, c5_reconcileIdempotence [] [.rect exRect] (by simp)⟩

/-! ## C8 — move changes only position -/

/-- C8: a move step translates `x` by `dx` and `y` by `dy` and leaves the id,
size, rotation, layer and every style field unchanged, and `moveObjects`
reports exactly the mutated shapes through `onShapeChange`, once per shape
of the moving set. -/
theorem c8_moveOnlyXY (dx dy : ℚ) (s : Shape) :
    (moveShape dx dy s).x = s.x + dx
    ∧ (moveShape dx dy s).y = s.y + dy
    ∧ (moveShape dx dy s).width = s.width
    ∧ (moveShape dx dy s).height = s.height
    ∧ (moveShape dx dy s).rotation = s.rotation
    ∧ (moveShape dx dy s).layer = s.layer
    ∧ (moveShape dx dy s).id = s.id
    ∧ (moveShape dx dy s).style = s.style
    ∧ ∀ moving : List Shape,
        (moveObjects moving dx dy).2 = moving.map (moveShape dx dy)
        ∧ (moveObjects moving dx dy).1 = moving.map (moveShape dx dy)
        ∧ (moveObjects moving dx dy).2.length = moving.length := by
  refine ⟨?_, ?_, ?_, ?_, ?_, ?_, ?_, ?_, ?_⟩
  all_goals
    first
    | (cases s <;>
        simp [moveShape, Shape.x, Shape.y, Shape.width, Shape.height,
          Shape.rotation, Shape.layer, Shape.id, Shape.style])
    | (intro moving; exact ⟨rfl, rfl, by simp [moveObjects]⟩)

/-! ## C6 — shift-click double toggle -/

theorem idSet_of_perm {S T : List Shape} (h : S.Perm T) : idSet S = idSet T := by
  unfold idSet
  ext a
  rw [List.mem_toFinset, List.mem_toFinset]
  exact (h.map Shape.id).mem_iff

theorem idSet_append_single (A : List Shape) (h : Shape) :
    idSet (A ++ [h]) = insert h.id (idSet A) := by
  ext a
  simp [idSet, or_comm]

/-- C6: toggling the same hit shape twice with the modifier key held returns
the original selection id-set, for every duplicate-free selection list (the
JS `Set` of object references never holds duplicates). -/
theorem c6_doubleToggle (S : List Shape) (hit : Shape) (hnd : S.Nodup) :
    idSet (toggleClick (some (toggleClick (some S) hit)) hit) = idSet S := by
  by_cases hg : S.any (fun o => o.id == hit.id) = true
  · have h1 : toggleClick (some S) hit = S.erase hit := by
      simp [toggleClick, hg]
    by_cases hin : hit ∈ S
    · have hSins : idSet S = insert hit.id (idSet (S.erase hit)) := by
        have hp : S.Perm (hit :: S.erase hit) := List.perm_cons_erase hin
        rw [idSet_of_perm hp]
        ext a
        simp [idSet]
      rw [h1]
      by_cases hg2 : (S.erase hit).any (fun o => o.id == hit.id) = true
      · have h2 : toggleClick (some (S.erase hit)) hit
            = (S.erase hit).erase hit := by
          simp [toggleClick, hg2]
        have hnot : hit ∉ S.erase hit := hnd.not_mem_erase
        rw [h2, List.erase_of_not_mem hnot, hSins]
        symm
        apply Finset.insert_eq_self.mpr
        obtain ⟨o, ho, hoid⟩ : ∃ o ∈ S.erase hit, (o.id == hit.id) = true :=
          List.any_eq_true.mp hg2
        have : o.id = hit.id := by simpa using hoid
        rw [← this]
        simp [idSet]
        exact ⟨o, ho, rfl⟩
      · have h2 : toggleClick (some (S.erase hit)) hit
            = (S.erase hit) ++ [hit] := by
          simp [toggleClick, hg2]
        rw [h2, idSet_append_single]
        exact hSins.symm
    · have heq : S.erase hit = S := List.erase_of_not_mem hin
      rw [h1, heq, h1, heq]
  · have hnotin : hit ∉ S := by
      intro hmem
      exact hg (List.any_eq_true.mpr ⟨hit, hmem, by simp⟩)
    have h1 : toggleClick (some S) hit = S ++ [hit] := by
      simp [toggleClick, hg]
    have hg2 : (S ++ [hit]).any (fun o => o.id == hit.id) = true :=
      List.any_eq_true.mpr ⟨hit, by simp, by simp⟩
    have h2 : toggleClick (some (S ++ [hit])) hit = (S ++ [hit]).erase hit := by
      simp [toggleClick, hg2]
    rw [h1, h2, List.erase_append_right _ hnotin]
    simp

/-- C6 witness: double-toggling `exRect` on the two-element selection
`[exRect, exRectB]` (first toggle removes it, second re-adds it) preserves
the selection id-set. -/
theorem c6_doubleToggle_witness :
    ([Shape.rect exRect, Shape.rect exRectB] : List Shape).Nodup
    ∧ idSet (toggleClick
          (some (toggleClick (some [Shape.rect exRect, Shape.rect exRectB])
            (.rect exRect)))
          (.rect exRect))
        = idSet [Shape.rect exRect, Shape.rect exRectB] :=
  ⟨by simp [exRect, exRectB],
   c6_doubleToggle [Shape.rect exRect, Shape.rect exRectB] (.rect exRect)
     (by simp [exRect, exRectB])⟩

/-! ## C7 — at most one outstanding animation timer per shape id -/

theorem gifInv_pending_clearCached {s : GifTimerState} (h : GifInv s) :
    (clearCached s).pending = [] := by
  obtain ⟨hlen, hcache⟩ := h
  unfold clearCached
  cases hc : s.cache with
  | none =>
    simp only
    cases hp : s.pending with
    | nil => rfl
    | cons t ts =>
      exfalso
      have := hcache t (by rw [hp]; exact List.mem_cons_self t ts)
      rw [hc] at this
      exact Option.noConfusion this
  | some t =>
    simp only
    cases hp : s.pending with
    | nil => rfl
    | cons u us =>
      have hu := hcache u (by rw [hp]; exact List.mem_cons_self u us)
      rw [hc] at hu
      have hut : u = t := by
        injection hu with h1
        exact h1.symm
      have : us = [] := by
        rw [hp] at hlen
        simpa using hlen
      subst this
      subst hut
      simp [List.erase_cons_head]

theorem gifInv_scheduleTimer {p : List Nat} {c : Option Nat} {n : Nat}
    (hp : p = []) : GifInv (scheduleTimer ⟨p, c, n⟩) := by
  subst hp
  constructor
  · simp [scheduleTimer]
  · intro t ht
    simp [scheduleTimer] at ht
    simp [scheduleTimer, ht]

theorem gifInv_preserved {s s' : GifTimerState} (h : GifInv s)
    (hstep : GifStep s s') : GifInv s' := by
  cases hstep with
  | draw =>
    have hc := gifInv_pending_clearCached h
    have : clearCached s = ⟨[], (clearCached s).cache, (clearCached s).nextId⟩ := by
      cases hcl : clearCached s
      simp only at hc ⊢
      rw [hcl] at hc
      simp at hc
      rw [hc]
    rw [this]
    exact gifInv_scheduleTimer rfl
  | fire t ht =>
    obtain ⟨hlen, _⟩ := h
    have hpend : s.pending = [t] := by
      cases hp : s.pending with
      | nil => rw [hp] at ht; exact absurd ht (List.not_mem_nil t)
      | cons u us =>
        have : us = [] := by rw [hp] at hlen; simpa using hlen
        subst this
        rw [hp] at ht
        simp at ht
        rw [ht]
    have : s.pending.erase t = [] := by rw [hpend]; simp
    rw [this]
    exact gifInv_scheduleTimer rfl
  | fireStopped t ht =>
    obtain ⟨hlen, _⟩ := h
    have hpend : s.pending = [t] := by
      cases hp : s.pending with
      | nil => rw [hp] at ht; exact absurd ht (List.not_mem_nil t)
      | cons u us =>
        have : us = [] := by rw [hp] at hlen; simpa using hlen
        subst this
        rw [hp] at ht
        simp at ht
        rw [ht]
    constructor
    · simp [hpend]
    · intro u hu
      simp [hpend] at hu
  | cleanup =>
    have hc := gifInv_pending_clearCached h
    constructor
    · simp [hc]
    · intro u hu
      rw [hc] at hu
      exact absurd hu (List.not_mem_nil u)

theorem gifInv_of_reachable {s : GifTimerState} (h : GifReachable s) :
    GifInv s := by
  induction h with
  | init =>
    constructor
    · simp
    · intro t ht
      exact absurd ht (List.not_mem_nil t)
  | step _ hstep ih => exact gifInv_preserved ih hstep

/-- C7: in every state reachable through the timer events of `drawImage` /
`animateGif` (clear-then-schedule on draw, consume-and-reschedule on fire,
cancel on cleanup), at most one scheduled animation callback is outstanding
for the shape id. -/
theorem c7_timerInvariant (s : GifTimerState) (h : GifReachable s) :
    s.pending.length ≤ 1 :=
  (gifInv_of_reachable h).1

/-- C7 witness: the state after one `drawImage` call on a fresh shape id
(one pending timer, cached) is reachable and satisfies the bound. -/
theorem c7_timerInvariant_witness :
    GifReachable (GifTimerState.mk [0] (some 0) 1)
    ∧ (GifTimerState.mk [0] (some 0) 1).pending.length ≤ 1 := by
  have hreach : GifReachable (GifTimerState.mk [0] (some 0) 1) := by
    have h0 := GifReachable.step GifReachable.init
      (GifStep.draw ⟨[], none, 0⟩)
    simpa [clearCached, scheduleTimer] using h0
  exact ⟨hreach, c7_timerInvariant _ hreach⟩

/-! ## C9 — selection pruning on CanvasData change -/

/-- C9: whenever the reconciliation effect runs against new objects, a
selection and hover that referred to previously layered shapes end up
referring only to ids present in the new `CanvasData`: pruned when layers
were removed, and automatically still present when no layer was removed. -/
theorem c9_selectionPruned (old : List ShapeLayer) (sel : List Shape)
    (hov : Option Shape) (objects : List Shape)
    (hsel : ∀ s ∈ sel, s.id ∈ old.map (fun l => l.shape.id))
    (hhov : ∀ h, hov = some h → h.id ∈ old.map (fun l => l.shape.id)) :
    (∀ s ∈ ((reconcileSelection old (some sel) hov objects).1.getD []),
      s.id ∈ objects.map Shape.id)
    ∧ (∀ h, (reconcileSelection old (some sel) hov objects).2 = some h →
        h.id ∈ objects.map Shape.id) := by
  by_cases hrem :
      0 < (old.filter fun l => !((objects.map Shape.id).contains l.shape.id)).length
  · simp only [reconcileSelection, if_pos hrem]
    constructor
    · by_cases hlen :
          (sel.filter fun o => (objects.map Shape.id).contains o.id).length
            ≠ sel.length
      · rw [if_pos hlen]
        by_cases hpos :
            0 < (sel.filter fun o => (objects.map Shape.id).contains o.id).length
        · rw [if_pos hpos]
          intro s hs
          simp only [Option.getD_some] at hs
          have := (List.mem_filter.mp hs).2
          exact List.elem_iff.mp this
        · rw [if_neg hpos]
          intro s hs
          simp at hs
      · rw [if_neg hlen]
        have heq : sel.filter (fun o => (objects.map Shape.id).contains o.id)
            = sel :=
          (List.filter_sublist sel).eq_of_length (by omega)
        intro s hs
        simp only [Option.getD_some] at hs
        exact List.elem_iff.mp (List.filter_eq_self.mp heq s hs)
    · cases hov with
      | none =>
        intro h hcontra
        simp at hcontra
      | some h0 =>
        intro h heq
        simp at heq
        obtain ⟨⟨x, hx, hxid⟩, rfl⟩ := heq
        exact List.mem_map.mpr ⟨x, hx, hxid⟩
  · simp only [reconcileSelection, if_neg hrem]
    have hempty :
        (old.filter fun l => !((objects.map Shape.id).contains l.shape.id)) = [] := by
      have : (old.filter
          fun l => !((objects.map Shape.id).contains l.shape.id)).length = 0 := by
        omega
      exact List.eq_nil_of_length_eq_zero this
    have hall : ∀ l ∈ old, l.shape.id ∈ objects.map Shape.id := by
      intro l hl
      have := List.filter_eq_nil_iff.mp hempty l hl
      have hc : (objects.map Shape.id).contains l.shape.id = true := by
        simpa using this
      exact List.elem_iff.mp hc
    constructor
    · intro s hs
      simp only [Option.getD_some] at hs
      obtain ⟨l, hl, hid⟩ := List.mem_map.mp (hsel s hs)
      rw [← hid]
      exact hall l hl
    · intro h heq
      obtain ⟨l, hl, hid⟩ := List.mem_map.mp (hhov h heq)
      rw [← hid]
      exact hall l hl

/-- C9 witness: with previous layers for `exRect` and `exRectB`, selection
`[exRect]` and no hover, reconciling against objects `[exRectB]` (so
`exRect`'s id disappeared) leaves no selected id outside the new objects. -/
theorem c9_selectionPruned_witness :
    (∀ s ∈ [Shape.rect exRect],
      s.id ∈ [ShapeLayer.mk (.rect exRect) false,
              ShapeLayer.mk (.rect exRectB) false].map (fun l => l.shape.id))
    ∧ ((∀ s ∈ ((reconcileSelection
          [ShapeLayer.mk (.rect exRect) false,
           ShapeLayer.mk (.rect exRectB) false]
          (some [Shape.rect exRect]) none [.rect exRectB]).1.getD []),
        s.id ∈ [Shape.rect exRectB].map Shape.id)
      ∧ (∀ h, (reconcileSelection
          [ShapeLayer.mk (.rect exRect) false,
           ShapeLayer.mk (.rect exRectB) false]
          (some [Shape.rect exRect]) none [.rect exRectB]).2 = some h →
        h.id ∈ [Shape.rect exRectB].map Shape.id)) :=
  ⟨by simp,
   c9_selectionPruned _ _ _ _ (by simp) (by intro h hcontra; simp at hcontra)⟩

/-! ## C10 — CSV export empty guard -/

/-- C10: with zero recorded entries `exportAsCSV` returns the literal message
`No performance data available`; with at least one entry it returns the
header line followed (newline-joined) by one row per recorded sample, and in
particular never the empty-data message. -/
theorem c10_exportCSV :
    exportAsCSV [] = "No performance data available"
    ∧ (∀ (e : PerfEntry) (es : List PerfEntry),
        exportAsCSV (e :: es)
          = csvHeaderLine ++ "\n" ++ jsJoin "\n" ((e :: es).map csvRow))
    ∧ (∀ (e : PerfEntry) (es : List PerfEntry),
        exportAsCSV (e :: es) ≠ "No performance data available") := by
  refine ⟨rfl, fun e es => rfl, ?_⟩
  intro e es h
  have he : exportAsCSV (e :: es)
      = csvHeaderLine ++ "\n" ++ jsJoin "\n" ((e :: es).map csvRow) := rfl
  rw [he] at h
  have h2 := congrArg String.length h
  rw [String.length_append, String.length_append] at h2
  have hhd : csvHeaderLine.length = 84 := by decide
  have hnl : ("\n" : String).length = 1 := by decide
  have hmsg : ("No performance data available" : String).length = 29 := by decide
  omega

end Whiteboard
